import Mathlib

/-!
Verification development for the `fidelity-helper` request-construction /
response-normalization client (`src/fidelity.ts`).

The TypeScript source is shallowly embedded: machine-level `Date` values are
epoch milliseconds (`Int`), JavaScript numbers along the amount pipeline are
exact decimal rationals, fallible operations return `Except`/`Option`, and the
network boundary is an explicit environment of queued fetch outcomes together
with a trace of the fetch calls that were performed.
-/

set_option maxRecDepth 8000

namespace FidelityHelper

/-- Decidable equality of `Except` results (needed to evaluate runs of the
embedded client on concrete inputs). -/
instance {ε α : Type} [DecidableEq ε] [DecidableEq α] : DecidableEq (Except ε α) := fun x y =>
  match x, y with
  | .ok a, .ok b =>
    if h : a = b then isTrue (by rw [h]) else isFalse (by intro hc; cases hc; exact h rfl)
  | .error a, .error b =>
    if h : a = b then isTrue (by rw [h]) else isFalse (by intro hc; cases hc; exact h rfl)
  | .ok a, .error b => isFalse (by intro hc; cases hc)
  | .error a, .ok b => isFalse (by intro hc; cases hc)

/-! ## Proleptic Gregorian calendar arithmetic

Models ECMAScript `Date` UTC field extraction and `Date.UTC`, and the ISO
calendar used by `Temporal.PlainDate`, via the standard civil-from-days /
days-from-civil algorithms (Euclidean division by positive constants is floor
division, matching the ECMAScript specification's `floor`/`modulo`).
-/

/-- Year shift used by the days-from-civil algorithm: January and February are
counted as months 13 and 14 of the previous year. -/
def yearShift (y m : Int) : Int := if m ≤ 2 then y - 1 else y

/-- Index of the 400-year Gregorian era containing shifted year `y'`. -/
def eraOf (y' : Int) : Int := y' / 400

/-- Year of era: position of shifted year `y'` within its 400-year era. -/
def yoeOf (y' : Int) : Int := y' - 400 * eraOf y'

/-- Day of the March-based year for civil month `m` and day-of-month `d`
(zero-based; March 1 is day 0). -/
def doyOf (m d : Int) : Int :=
  (153 * (if 2 < m then m - 3 else m + 9) + 2) / 5 + d - 1

/-- Day of era for shifted year `y'`, month `m`, day `d`. -/
def doeOf (y' m d : Int) : Int :=
  yoeOf y' * 365 + yoeOf y' / 4 - yoeOf y' / 100 + doyOf m d

/-- Number of days from 1970-01-01 to the proleptic Gregorian date `y-m-d`.
Models both `Date.UTC(y, m-1, d) / 86400000` and the day arithmetic of the
`Temporal` ISO calendar. -/
def daysFromCivil (y m d : Int) : Int :=
  eraOf (yearShift y m) * 146097 + doeOf (yearShift y m) m d - 719468

/-- Proleptic Gregorian date `(y, m, d)` of the day `z` days after 1970-01-01.
Models the calendar components returned by the `Date` field getters. -/
def civilFromDays (z : Int) : Int × Int × Int :=
  let z' := z + 719468
  let era := z' / 146097
  let doe := z' - era * 146097
  let yoe := (doe - doe / 1460 + doe / 36524 - doe / 146096) / 365
  let y := yoe + era * 400
  let doy := doe - (365 * yoe + yoe / 4 - yoe / 100)
  let mp := (5 * doy + 2) / 153
  let d := doy - (153 * mp + 2) / 5 + 1
  let m := if mp < 10 then mp + 3 else mp - 9
  (if m ≤ 2 then y + 1 else y, m, d)

/-- Proleptic Gregorian leap year (the ISO calendar rule). -/
def isLeapYear (y : Int) : Prop := (4 ∣ y ∧ ¬(100 ∣ y)) ∨ 400 ∣ y

instance (y : Int) : Decidable (isLeapYear y) := by
  unfold isLeapYear; infer_instance

/-- Number of days in month `m` of year `y` in the ISO calendar. -/
def daysInMonth (y m : Int) : Int :=
  if m = 2 then (if isLeapYear y then 29 else 28)
  else if m = 4 ∨ m = 6 ∨ m = 9 ∨ m = 11 then 30
  else 31

/-- A valid calendar day of the ISO calendar. -/
def validCivil (y m d : Int) : Prop :=
  1 ≤ m ∧ m ≤ 12 ∧ 1 ≤ d ∧ d ≤ daysInMonth y m

instance (y m d : Int) : Decidable (validCivil y m d) := by
  unfold validCivil; infer_instance

/-- The calendar day following `y-m-d`. -/
def nextCivil (y m d : Int) : Int × Int × Int :=
  if d < daysInMonth y m then (y, m, d + 1)
  else if m < 12 then (y, m + 1, 1)
  else (y + 1, 1, 1)

/-! ## America/New_York zone model

Models the offset that `Temporal.PlainDate.toZonedDateTime("America/New_York")`
applies at local midnight, per the IANA time zone database entry for
America/New_York:
- before the railway-time changeover of 1883-11-18 (at 12:03:58 local
  time), local mean time, UTC−4:56:02, so local midnight is 04:56:02 UTC;
- from then on, Eastern Standard Time UTC−05:00 and Eastern Daylight Time
  UTC−04:00, with daylight saving per the US/NYC rule eras transcribed in
  `nyDstAtMidnight`.
Every transition other than the 1883 changeover occurs at 02:00 local time,
so at local midnight of a spring-transition day the zone is still on
standard time, and at local midnight of an autumn-transition day it is
still on daylight time. -/

/-- Weekday index of day number `n` (0 = Sunday; 1970-01-01 was a Thursday). -/
def weekdayOf (n : Int) : Int := (n + 4) % 7

/-- Day of month of the second Sunday of March in year `y`. -/
def secondSundayMarch (y : Int) : Int :=
  14 - weekdayOf (daysFromCivil y 3 14)

/-- Day of month of the first Sunday of November in year `y`. -/
def firstSundayNov (y : Int) : Int :=
  7 - weekdayOf (daysFromCivil y 11 7)

/-- Day of month of the first Sunday of month `m` in year `y`. -/
def firstSundayOf (y m : Int) : Int :=
  7 - weekdayOf (daysFromCivil y m 7)

/-- Day of month of the last Sunday of month `m` in year `y`. -/
def lastSundayOf (y m : Int) : Int :=
  daysInMonth y m - weekdayOf (daysFromCivil y m (daysInMonth y m))

/-- Whether month/day `(m, d)` is strictly after `(m0, d0)`. -/
def afterMD (m d m0 d0 : Int) : Bool :=
  decide (m0 < m) || (decide (m = m0) && decide (d0 < d))

/-- Whether month/day `(m, d)` is on or before `(m0, d0)`. -/
def onOrBeforeMD (m d m0 d0 : Int) : Bool :=
  decide (m < m0) || (decide (m = m0) && decide (d ≤ d0))

/-- A daylight-saving window within one year: daylight time is in effect at
local midnight strictly after the spring-transition day `(ms, ds)` and
through the autumn-transition day `(mf, df)` (transitions happen at 02:00
local, so both transition days are still on the pre-transition offset at
their own midnight). -/
def nyDstWindow (m d ms ds mf df : Int) : Bool :=
  afterMD m d ms ds && onOrBeforeMD m d mf df

/-- Whether daylight-saving time is in effect at local midnight of day
`y-m-d` in the America/New_York zone, transcribed from the IANA database's
rule eras for this zone (rules `US` and `NYC` as selected by the zone
record):
- before 1918: no daylight saving;
- 1918-1920: last Sunday of March through last Sunday of October (US rule
  1918-1919, and the identical NYC rule for 1920);
- 1921-1941 (NYC): last Sunday of April through last Sunday of September;
- 1942: war time from February 9 (02:00) through year end;
- 1943-1944: war time all year;
- 1945: war time through September 30 (02:00);
- 1946-1954 (NYC): last Sunday of April through last Sunday of September;
- 1955-1973 (NYC through 1966, then US): last Sunday of April through last
  Sunday of October;
- 1974 (US, energy crisis): January 6 through last Sunday of October;
- 1975 (US): February 23 through last Sunday of October;
- 1976-1986 (US): last Sunday of April through last Sunday of October;
- 1987-2006 (US): first Sunday of April through last Sunday of October;
- 2007 on (US): second Sunday of March through first Sunday of November
  (the rule the database also extrapolates to future years). -/
def nyDstAtMidnight (y m d : Int) : Bool :=
  if y < 1918 then false
  else if y ≤ 1920 then nyDstWindow m d 3 (lastSundayOf y 3) 10 (lastSundayOf y 10)
  else if y ≤ 1941 then nyDstWindow m d 4 (lastSundayOf y 4) 9 (lastSundayOf y 9)
  else if y = 1942 then afterMD m d 2 9
  else if y ≤ 1944 then true
  else if y = 1945 then onOrBeforeMD m d 9 30
  else if y ≤ 1954 then nyDstWindow m d 4 (lastSundayOf y 4) 9 (lastSundayOf y 9)
  else if y ≤ 1973 then nyDstWindow m d 4 (lastSundayOf y 4) 10 (lastSundayOf y 10)
  else if y = 1974 then afterMD m d 1 6 && onOrBeforeMD m d 10 (lastSundayOf y 10)
  else if y = 1975 then afterMD m d 2 23 && onOrBeforeMD m d 10 (lastSundayOf y 10)
  else if y ≤ 1986 then nyDstWindow m d 4 (lastSundayOf y 4) 10 (lastSundayOf y 10)
  else if y ≤ 2006 then nyDstWindow m d 4 (firstSundayOf y 4) 10 (lastSundayOf y 10)
  else nyDstWindow m d 3 (secondSundayMarch y) 11 (firstSundayNov y)

/-- The first calendar day (as a day number, 1883-11-19) whose local
midnight falls in the zone's whole-hour standard-time era: the changeover
from local mean time happened at 12:03:58 local time on 1883-11-18, so that
day's midnight is still on local mean time. -/
def nyStandardTimeStartDay : Int := -31454

/-- Milliseconds to add to the UTC midnight of day `y-m-d` to reach that
day's local midnight in America/New_York: 4:56:02 during local mean time,
4:00 during daylight time, 5:00 during standard time. -/
def nyOffsetMsAtMidnight (y m d : Int) : Int :=
  if daysFromCivil y m d < nyStandardTimeStartDay then 17762000
  else if nyDstAtMidnight y m d then 14400000 else 18000000

/-- Epoch milliseconds of local midnight of calendar day `y-m-d` in the
America/New_York zone: the model of
`Temporal.PlainDate.from({y,m,d}).toZonedDateTime(FIDELITY_ZONE).epochMilliseconds`. -/
def nyMidnightEpochMs (y m d : Int) : Int :=
  daysFromCivil y m d * 86400000 + nyOffsetMsAtMidnight y m d

/-- Epoch seconds of local midnight of `y-m-d` in America/New_York. -/
def nyMidnightEpochSec (y m d : Int) : Int := nyMidnightEpochMs y m d / 1000

/-- Embedding of `Fidelity.fidelityDate` (fidelity.ts:139-146): extract the
UTC calendar components of the `Date` given by epoch milliseconds `ms`, take
midnight of that calendar day in America/New_York, and render its epoch
seconds (`Math.floor(epochMilliseconds / 1000)`) as a decimal string. -/
def fidelityDate (ms : Int) : String :=
  match civilFromDays (ms / 86400000) with
  | (y, m, d) => toString (nyMidnightEpochMs y m d / 1000)

/-! ## JavaScript string and number utilities

Numbers along the amount pipeline are modeled as exact decimal rationals
(an integer numerator over a power-of-ten denominator); the claims under
verification are about the decimal semantics of the parsed values, not about
binary floating-point representation error. -/

/-- Whitespace characters recognized by the model (the common ASCII subset of
the ECMAScript WhiteSpace/LineTerminator classes). -/
def isWsChar (c : Char) : Bool :=
  c = ' ' || c = '\t' || c = '\n' || c = '\r' || c = '\x0b' || c = '\x0c'

/-- Longest prefix of decimal digits, as digit values, plus the rest. -/
def takeDigits : List Char → List Nat × List Char
  | [] => ([], [])
  | c :: cs =>
    if c.isDigit then
      let (ds, rest) := takeDigits cs
      ((c.toNat - 48) :: ds, rest)
    else ([], c :: cs)

/-- Value of a big-endian list of decimal digit values. -/
def natOfDigits (ds : List Nat) : Nat := ds.foldl (fun a d => 10 * a + d) 0

/-- Consume an optional leading sign, returning its value. -/
def readSign : List Char → Int × List Char
  | '+' :: cs => (1, cs)
  | '-' :: cs => (-1, cs)
  | cs => (1, cs)

/-- An exact decimal value `num / 10 ^ exp` (not necessarily in lowest
terms), the model of a finite JavaScript number along the amount pipeline. -/
structure DecVal where
  num : Int
  exp : Nat
deriving DecidableEq

/-- Rational value denoted by a `DecVal`. -/
def DecVal.toRat (v : DecVal) : ℚ := (v.num : ℚ) / (10 : ℚ) ^ v.exp

/-- Model of ECMAScript `parseFloat`: skip leading whitespace, then read the
longest prefix matching `sign? digits (. digits?)? | sign? . digits`, followed
by an optional exponent part (consumed only when its digits are present), and
ignore any trailing garbage. Returns `none` when no numeric prefix exists
(`NaN`). Non-finite literals (`Infinity`) are outside the model. -/
def jsParseFloat (s : String) : Option DecVal :=
  let cs := s.data.dropWhile isWsChar
  let (sgn, cs1) := readSign cs
  let (ip, cs2) := takeDigits cs1
  let (fp, cs3) :=
    match cs2 with
    | '.' :: rest => takeDigits rest
    | _ => ([], cs2)
  if ip.isEmpty && fp.isEmpty then none
  else
    let mant : Int := (natOfDigits ip * 10 ^ fp.length + natOfDigits fp : Nat)
    let e : Int :=
      match cs3 with
      | c :: rest =>
        if c = 'e' || c = 'E' then
          let (es, rest2) := readSign rest
          let (eds, _) := takeDigits rest2
          if eds.isEmpty then 0 else es * (natOfDigits eds : Int)
        else 0
      | [] => 0
    some (if 0 ≤ e then ⟨sgn * mant * 10 ^ e.toNat, fp.length⟩
      else ⟨sgn * mant, fp.length + (-e).toNat⟩)

/-- Amount of `v` in cents after `Math.round(v * 100)`: rounding half toward
positive infinity, computed as `⌊v * 100 + 1/2⌋` over the exact decimal
representation. The source divides this by 100 afterwards; that division is
exact value scaling and the embedding keeps amounts in cents (see
`centsToDollars`). -/
def roundCents (v : DecVal) : Int :=
  (2 * (v.num * 100) + (10 : Int) ^ v.exp) / (2 * (10 : Int) ^ v.exp)

/-- The dollar value the source stores for an amount of `c` cents. -/
def centsToDollars (c : Int) : ℚ := (c : ℚ) / 100

/-- Embedding of `h.amount.replace(/[,$]/g, "")`: delete every comma and
dollar sign. -/
def stripCommaDollar (s : String) : String :=
  String.mk (s.data.filter (fun c => !(c = ',' || c = '$')))

/-- Whether `s.trim()` is the empty string: every character is whitespace. -/
def jsIsBlank (s : String) : Bool := s.data.all isWsChar

/-- ASCII lowercasing of one character (the model of `String.toLowerCase`
restricted to the ASCII range, which covers the status strings compared). -/
def jsCharToLower (c : Char) : Char :=
  if 'A' ≤ c && c ≤ 'Z' then Char.ofNat (c.toNat + 32) else c

/-- Model of `String.prototype.toLowerCase` on ASCII strings. -/
def jsToLower (s : String) : String := String.mk (s.data.map jsCharToLower)

/-- Rendering of a day offset of `n` milliseconds as fractional hours. The
digits of the textual form of the JavaScript number interpolated into the
date-validation message are abstracted by this rendering (no verified claim
depends on them). -/
def hoursRender (n : Int) : String :=
  if n % 3600000 = 0 then toString (n / 3600000)
  else toString n ++ "/3600000"

/-- Embedding of `Fidelity.checkDate` (fidelity.ts:191-197): the UTC
time-of-day components of the date, combined into a fractional-hour offset
(`getUTCHours() + getUTCMinutes()/60 + getUTCSeconds()/3600 +
getUTCMilliseconds()/3600000`, an exact rational with denominator 3600000,
kept here as its numerator in milliseconds); a non-zero offset yields a
violation message and an exact midnight yields the empty string. -/
def checkDate (ms : Int) : String :=
  let hours := ms / 3600000 % 24
  let minutes := ms / 60000 % 60
  let seconds := ms / 1000 % 60
  let millis := ms % 1000
  let dayOffsetMs := hours * 3600000 + minutes * 60000 + seconds * 1000 + millis
  if dayOffsetMs ≠ 0 then "not exact day: " ++ hoursRender dayOffsetMs ++ " hours" else ""

/-- Partial model of ECMAScript `new Date(string)` parsing, covering the ISO
8601 date-only format `YYYY-MM-DD`, which denotes midnight UTC of that
calendar day; strings outside this profile are out of the model and map to
an invalid date (`none`). -/
def jsDateParse (s : String) : Option Int :=
  match s.data with
  | [y1, y2, y3, y4, c1, n1, n2, c2, d1, d2] =>
    if y1.isDigit && y2.isDigit && y3.isDigit && y4.isDigit && c1 = '-' &&
        n1.isDigit && n2.isDigit && c2 = '-' && d1.isDigit && d2.isDigit then
      let y : Int :=
        (natOfDigits [y1.toNat - 48, y2.toNat - 48, y3.toNat - 48, y4.toNat - 48] : Int)
      let m : Int := (natOfDigits [n1.toNat - 48, n2.toNat - 48] : Int)
      let d : Int := (natOfDigits [d1.toNat - 48, d2.toNat - 48] : Int)
      if validCivil y m d then some (daysFromCivil y m d * 86400000) else none
    else none
  | _ => none

/-! ## UTF-8 and base64 -/

/-- UTF-8 encoding of one character as byte values. -/
def utf8Bytes (c : Char) : List Nat :=
  let n := c.toNat
  if n < 128 then [n]
  else if n < 2048 then [192 + n / 64, 128 + n % 64]
  else if n < 65536 then [224 + n / 4096, 128 + n / 64 % 64, 128 + n % 64]
  else [240 + n / 262144, 128 + n / 4096 % 64, 128 + n / 64 % 64, 128 + n % 64]

/-- UTF-8 encoding of a string, as the model of `Buffer.from(name, "utf8")`. -/
def utf8Encode (s : String) : List Nat :=
  s.data.foldr (fun c acc => utf8Bytes c ++ acc) []

/-- Character of the standard base64 alphabet at index `n`. -/
def base64Digit (n : Nat) : Char :=
  "ABCDEFGHIJKLMNOPQRSTUVWXYZabcdefghijklmnopqrstuvwxyz0123456789+/".data.getD n 'A'

/-- Standard base64 encoding of a byte list, with `=` padding. -/
def base64Chars : List Nat → List Char
  | [] => []
  | [b1] => [base64Digit (b1 / 4), base64Digit (b1 % 4 * 16), '=', '=']
  | [b1, b2] =>
    [base64Digit (b1 / 4), base64Digit (b1 % 4 * 16 + b2 / 16),
      base64Digit (b2 % 16 * 4), '=']
  | b1 :: b2 :: b3 :: rest =>
    base64Digit (b1 / 4) :: base64Digit (b1 % 4 * 16 + b2 / 16) ::
      base64Digit (b2 % 16 * 4 + b3 / 64) :: base64Digit (b3 % 64) ::
        base64Chars rest

/-- Embedding of `Fidelity.encodeAccountName` (fidelity.ts:153-155): base64
of the UTF-8 bytes of the name. -/
def encodeAccountName (name : String) : String :=
  String.mk (base64Chars (utf8Encode name))

/-! ## Domain data model (fidelity.ts:17-39, fidelity-models.ts) -/

/-- Embedding of the `Account` interface (fidelity.ts:17-23). -/
structure Account where
  number : String
  name : String
deriving DecidableEq

/-- Embedding of `GetTransactionsRespHistoryModel` (fidelity-models.ts):
one raw upstream history entry. -/
structure HistoryEntry where
  acctNum : String
  amount : String
  date : String
  description : String
  intradayInd : Bool
  orderNumber : String
deriving DecidableEq

/-- Embedding of the `Transaction` interface (fidelity.ts:25-39). The date
is epoch milliseconds, `none` modeling an Invalid Date (unparsable upstream
date string); the amount is in cents (`centsToDollars` recovers the dollar
value the source stores — the source's final exact division by 100). -/
structure Transaction where
  acct_num : String
  date : Option Int
  description : String
  amount : Option Int
  order_number : Option String
  pending : Bool
deriving DecidableEq

/-- Embedding of `Fidelity.historyEntryToTransaction` (fidelity.ts:265-285),
parameterized by the runtime environment's local-zone offset in minutes east
of UTC (a fixed offset; the source's `getFullYear`/`getMonth`/`getDate` are
local-time accessors, so their result depends on the zone the process runs
in). The date is rebuilt at UTC midnight of the local calendar day of the
parsed instant via `Date.UTC`. -/
def historyEntryToTransaction (tzOffsetMinutes : Int) (h : HistoryEntry) : Transaction :=
  let date := (jsDateParse h.date).map (fun ms =>
    match civilFromDays ((ms + tzOffsetMinutes * 60000) / 86400000) with
    | (y, m, d) => daysFromCivil y m d * 86400000)
  let amount_str := stripCommaDollar h.amount
  let amount : Option Int :=
    if !(jsIsBlank amount_str) then (jsParseFloat amount_str).map roundCents
    else none
  { acct_num := h.acctNum
    date := date
    description := h.description
    amount := amount
    order_number := if h.orderNumber = "" then none else some h.orderNumber
    pending := h.intradayInd }

/-! ## JavaScript `Map` model

An insertion-ordered association list: `set` of an existing key overwrites
the value in place, `set` of a new key appends, iteration follows insertion
order — the semantics of the ECMAScript `Map` the client uses. -/

/-- Model of `Map.prototype.set`. -/
def jsMapSet {α : Type} : List (String × α) → String → α → List (String × α)
  | [], k, v => [(k, v)]
  | (k1, v1) :: rest, k, v =>
    if k1 = k then (k1, v) :: rest else (k1, v1) :: jsMapSet rest k v

/-- Model of `Map.prototype.get` (`none` for `undefined`). -/
def jsMapGet {α : Type} : List (String × α) → String → Option α
  | [], _ => none
  | (k1, v1) :: rest, k => if k1 = k then some v1 else jsMapGet rest k

/-- The account cache: a `Map` from account number to `Account`. -/
abbrev AcctMap := List (String × Account)

/-! ## Request construction -/

/-- One entry of the transaction-request template context: account number,
base64-encoded name, and the `last` rendering flag (fidelity.ts:241-245). -/
structure TemplatedAcct where
  number : String
  name : String
  last : Bool
deriving DecidableEq

/-- The date window of the transaction request document. -/
structure SearchCriteriaDetail where
  txnFromDate : String
  txnToDate : String
deriving DecidableEq

/-- Modelled from the spec: the transaction-request template files
(`fidelity-templates/getTransactionsBody.json.mustache` and
`getTransactionsOptions.json.mustache` are part of the repository but not
under `src/`), represented by their documented variable slots — the inner
body receives `accounts` (a sequence of `{number, name, last}` entries) and
`start`/`end` (epoch-seconds strings), and the rendered GraphQL envelope
carries the accounts in order under `variables.acctDetailList` and the dates
under `variables.searchCriteriaDetail.txnFromDate`/`txnToDate`; envelope
fields the template context does not determine (operation name, query text,
static search flags) are omitted. -/
structure GetTransactionsReq where
  acctDetailList : List TemplatedAcct
  searchCriteriaDetail : SearchCriteriaDetail
deriving DecidableEq

/-- The template-context account entries for `accounts`, with the `last`
flag of the entry at index `i` set when `i` equals `n - 1` (`n` is the total
count; this mirrors `i === accounts.length - 1` at fidelity.ts:244). -/
def buildAcctDictsAux (n : Nat) : Nat → List Account → List TemplatedAcct
  | _, [] => []
  | i, a :: rest =>
    ⟨a.number, encodeAccountName a.name, i == n - 1⟩ :: buildAcctDictsAux n (i + 1) rest

/-- Embedding of `Fidelity.getTransactionsBody` (fidelity.ts:240-255): the
inner transaction request document built from the resolved accounts and the
epoch-second encodings of the date range. -/
def getTransactionsBody (accounts : List Account) (startMs endMs : Int) :
    GetTransactionsReq :=
  { acctDetailList := buildAcctDictsAux accounts.length 0 accounts
    searchCriteriaDetail :=
      { txnFromDate := fidelityDate startMs, txnToDate := fidelityDate endMs } }

/-- JSON string-content escaping (quote and backslash; control characters do
not occur in the modeled documents). -/
def jsonEscape (s : String) : String :=
  String.mk (s.data.foldr (fun c acc =>
    (if c = '"' || c = '\\' then ['\\', c] else [c]) ++ acc) [])

/-- A JSON string literal. -/
def jsonStr (s : String) : String := "\"" ++ jsonEscape s ++ "\""

/-- Serialization of one `acctDetailList` entry. The `last` flag is template
rendering control (trailing-comma suppression), not document content, so it
is not serialized. -/
def serializeAcct (a : TemplatedAcct) : String :=
  "\x7b" ++ jsonStr "acctNum" ++ ":" ++ jsonStr a.number ++ "," ++
    jsonStr "name" ++ ":" ++ jsonStr a.name ++ "\x7d"

/-- Canonical JSON serialization of the inner transaction request document
(the modeled fields of the rendered template). -/
def serializeReq (r : GetTransactionsReq) : String :=
  "\x7b" ++ jsonStr "variables" ++ ":\x7b" ++ jsonStr "acctDetailList" ++ ":[" ++
    String.intercalate "," (r.acctDetailList.map serializeAcct) ++ "]," ++
    jsonStr "searchCriteriaDetail" ++ ":\x7b" ++
    jsonStr "txnFromDate" ++ ":" ++ jsonStr r.searchCriteriaDetail.txnFromDate ++ "," ++
    jsonStr "txnToDate" ++ ":" ++ jsonStr r.searchCriteriaDetail.txnToDate ++
    "\x7d\x7d\x7d"

/-- Transport-level request options. Modelled from the spec: the outer
template's static fields (method, headers) are omitted; its `body` slot
receives `JSON.stringify(JSON.stringify(innerDocument))`, and parsing the
rendered outer template (fidelity.ts:127-132) therefore yields an options
object whose `body` field is the once-serialized inner document — the double
encoding cancels against the outer parse. -/
structure ReqOptions where
  body : String
deriving DecidableEq

/-- Embedding of `Fidelity.getTransactionsOptions` (fidelity.ts:127-132). -/
def getTransactionsOptions (accounts : List Account) (startMs endMs : Int) :
    ReqOptions :=
  ⟨serializeReq (getTransactionsBody accounts startMs endMs)⟩

/-! ## Evaluator boundary and client state machine

All network effects go through the injected evaluator. The embedding makes
the boundary explicit: an environment fixes the outcome each endpoint would
return, and every client operation also yields the list of fetch calls it
performed, in order, together with the updated client state. -/

/-- The upstream account-summary response shape consumed by the client:
the backend status string at `data.getContext.sysStatus.backend.account` and
the asset list at `data.getContext.person.assets` as (acctNum, name) pairs. -/
structure AccountsResp where
  backendStatus : String
  assets : List (String × String)
deriving DecidableEq

/-- The transaction response shape: `data.getTransactions.historys`. -/
structure TxResp where
  historys : List HistoryEntry
deriving DecidableEq

/-- A 200 response body either has the expected nested shape or the typed
access throws (modeled by `malformed` with the thrown message). -/
inductive Shaped (σ : Type) where
  | malformed (cause : String)
  | wellFormed (v : σ)
deriving DecidableEq

/-- Outcome of one fetch through the evaluator: a non-200 transport result
with its raw text, or a 200 result with a (possibly malformed) JSON body. -/
inductive FetchOutcome (σ : Type) where
  | httpErr (status : Int) (text : String)
  | http200 (body : Shaped σ)
deriving DecidableEq

/-- The environment of one run: what each endpoint would answer, plus the
local-zone offset (minutes east of UTC) of the process. -/
structure Env where
  acctOutcome : FetchOutcome AccountsResp
  txnOutcome : FetchOutcome TxResp
  tzOffsetMinutes : Int
deriving DecidableEq

/-- One fetch call the client performed: the account-list POST (whose options
come from the static `getAccountsOptions.json` template, not in `src/` and
carrying no caller data) or the transaction POST with its options. -/
inductive FetchCall where
  | acctList
  | txns (options : ReqOptions)
deriving DecidableEq

/-- The per-instance client state: the account cache (`null` before the
first successful fetch). -/
structure ClientState where
  accounts : Option AcctMap
deriving DecidableEq

/-- The non-200 failure message of the shared private `fetch` helper
(fidelity.ts:174-189; the text says `get_transactions` for both endpoints
because the helper is shared). -/
def fetchFailMessage (status : Int) (text : String) : String :=
  "get_transactions fetch failed, code: " ++ toString status ++ ", text: " ++ text

/-- Embedding of the private `fetch` helper: non-200 fails, 200 yields the
body. -/
def doFetch {σ : Type} (outcome : FetchOutcome σ) : Except String (Shaped σ) :=
  match outcome with
  | .httpErr status text => .error (fetchFailMessage status text)
  | .http200 body => .ok body

/-- The account map built from the response assets (fidelity.ts:227-234):
insertion in response order, later duplicates overwriting in place. -/
def buildAccountMap (assets : List (String × String)) : AcctMap :=
  assets.foldl (fun m a => jsMapSet m a.1 ⟨a.1, a.2⟩) []

/-- Embedding of `Fidelity.fetchAccounts` (fidelity.ts:212-238). The
backend-status `FidelityError` is thrown inside the `try` block, so the
`catch` rewraps it into the parse-failure message. -/
def fetchAccounts (env : Env) : Except String AcctMap :=
  match doFetch env.acctOutcome with
  | .error e => .error e
  | .ok (.malformed cause) =>
    .error ("Failed to parse get_accounts response: " ++ cause)
  | .ok (.wellFormed resp) =>
    if jsToLower resp.backendStatus ≠ "ok" then
      .error ("Failed to parse get_accounts response: " ++
        ("Fidelity backend not ok " ++ resp.backendStatus))
    else .ok (buildAccountMap resp.assets)

/-- Embedding of `Fidelity.getAccounts` (fidelity.ts:204-210): return the
cache if set, otherwise fetch once and cache the result on success. -/
def getAccounts (env : Env) (st : ClientState) :
    Except String AcctMap × ClientState × List FetchCall :=
  match st.accounts with
  | some m => (.ok m, st, [])
  | none =>
    match fetchAccounts env with
    | .error e => (.error e, st, [.acctList])
    | .ok m => (.ok m, ⟨some m⟩, [.acctList])

/-- Embedding of `Fidelity.getAccount` (fidelity.ts:199-202): look one
identifier up in the account map (`none` models `null`). -/
def getAccount (env : Env) (st : ClientState) (acct : String) :
    Except String (Option Account) × ClientState × List FetchCall :=
  match getAccounts env st with
  | (.error e, st1, tr) => (.error e, st1, tr)
  | (.ok m, st1, tr) => (.ok (jsMapGet m acct), st1, tr)

/-- The resolution loop of `getTransactions` (fidelity.ts:83-86): set each
identifier's resolution into the `acctDict` map in input order, stopping at
the first thrown error. -/
def resolveAccounts (env : Env) :
    ClientState → List String → List (String × Option Account) →
      Except String (List (String × Option Account)) × ClientState × List FetchCall
  | st, [], dict => (.ok dict, st, [])
  | st, a :: rest, dict =>
    match getAccount env st a with
    | (.error e, st1, tr) => (.error e, st1, tr)
    | (.ok v, st1, tr) =>
      match resolveAccounts env st1 rest (jsMapSet dict a v) with
      | (r, st2, tr2) => (r, st2, tr ++ tr2)

/-- The body of `getTransactions` after date validation (fidelity.ts:83-109):
resolve the identifiers, fail on missing ones, fetch the transaction history
with the built options, and normalize each entry. -/
def getTransactionsCore (env : Env) (st : ClientState) (accounts : List String)
    (startMs endMs : Int) :
    Except String (List Transaction) × ClientState × List FetchCall :=
  match resolveAccounts env st accounts [] with
  | (.error e, st1, tr) => (.error e, st1, tr)
  | (.ok acctDict, st1, tr) =>
    let missing := (acctDict.filter (fun p => p.2.isNone)).map (fun p => p.1)
    if missing.length > 0 then
      (.error ("Account(s) not found: " ++ String.intercalate ", " missing), st1, tr)
    else
      let accts := acctDict.filterMap (fun p => p.2)
      let options := getTransactionsOptions accts startMs endMs
      match doFetch env.txnOutcome with
      | .error e => (.error e, st1, tr ++ [.txns options])
      | .ok (.malformed cause) =>
        (.error ("Failed to parse get_transactions response: " ++ cause), st1,
          tr ++ [.txns options])
      | .ok (.wellFormed resp) =>
        (.ok (resp.historys.map (historyEntryToTransaction env.tzOffsetMinutes)),
          st1, tr ++ [.txns options])

/-- Embedding of `Fidelity.getTransactions` (fidelity.ts:78-110): the date
validation prefix (fidelity.ts:79-82) followed by `getTransactionsCore`. -/
def getTransactions (env : Env) (st : ClientState) (accounts : List String)
    (startMs endMs : Int) :
    Except String (List Transaction) × ClientState × List FetchCall :=
  let msgs := [checkDate startMs, checkDate endMs].filter (fun m => m.length > 0)
  let dateMessage := String.intercalate "; " msgs
  if dateMessage.length > 0 then
    (.error ("Invalid date(s): " ++ dateMessage), st, [])
  else
    getTransactionsCore env st accounts startMs endMs

/-- Number of account-list fetch calls in a trace. -/
def acctCallCount (tr : List FetchCall) : Nat :=
  tr.countP (fun c => decide (c = FetchCall.acctList))

/-- The outcome of the transaction-fetch stage of `getTransactionsCore` as a
function of the environment: a network error, a parse error, or the
normalized transactions — the complete case list of results once the
account-resolution stage has passed. -/
def txnStageResult (env : Env) : Except String (List Transaction) :=
  match doFetch env.txnOutcome with
  | .error e => .error e
  | .ok (.malformed cause) =>
    .error ("Failed to parse get_transactions response: " ++ cause)
  | .ok (.wellFormed resp) =>
    .ok (resp.historys.map (historyEntryToTransaction env.tzOffsetMinutes))

/-! ## Specification-side definitions and auxiliary notions -/

/-- The identifiers of `ids` in first-occurrence order: the key sequence a
JavaScript `Map` holds after setting every identifier in input order. -/
def dedupKeys (ids : List String) : List String :=
  ids.foldl (fun acc a => if a ∈ acc then acc else acc ++ [a]) []

/-- Specification-side amount rule, following the spec's words: strip
thousands-separator commas and currency symbols; if the remaining string is
empty/blank, the amount is absent; otherwise parse as a decimal number and
round to 2 decimal places (kept in cents); if parsing yields a non-number,
the amount is absent. -/
def specAmount (raw : String) : Option Int :=
  let cleaned := stripCommaDollar raw
  if jsIsBlank cleaned then none
  else (jsParseFloat cleaned).map roundCents

/-- Specification-side order-number rule: the raw field if non-empty, else
absent. -/
def specOrderNumber (raw : String) : Option String :=
  if raw = "" then none else some raw

/-- Within a month, `daysFromCivil` is linear in the day of month. -/
theorem daysFromCivil_sameMonth (y m d : Int) :
    daysFromCivil y m (d + 1) = daysFromCivil y m d + 1 := by
  simp only [daysFromCivil, doeOf, yoeOf, eraOf, yearShift, doyOf]
  split_ifs <;> omega

set_option maxHeartbeats 1600000 in
/-- Moving to the next calendar day advances `daysFromCivil` by exactly one. -/
theorem daysFromCivil_nextCivil (y m d y2 m2 d2 : Int) (h : validCivil y m d)
    (hnext : nextCivil y m d = (y2, m2, d2)) :
    daysFromCivil y2 m2 d2 = daysFromCivil y m d + 1 := by
  obtain ⟨h1, h2, h3, h4⟩ := h
  simp only [nextCivil] at hnext
  split_ifs at hnext with hd hm
  · cases hnext
    exact daysFromCivil_sameMonth y m d
  · cases hnext
    interval_cases m <;>
      simp only [daysFromCivil, doeOf, yoeOf, eraOf, yearShift, doyOf, daysInMonth,
        isLeapYear] at h4 hd ⊢ <;>
      norm_num at h4 hd ⊢ <;> omega
  · cases hnext
    simp only [daysInMonth] at h4 hd
    have hm12 : m = 12 := by omega
    subst hm12
    simp only [daysFromCivil, doeOf, yoeOf, eraOf, yearShift, doyOf] at h4 hd ⊢
    norm_num at h4 hd ⊢
    omega

/-- The midnight offset is always one of the zone's three historical
offsets. -/
theorem nyOffsetMs_cases (y m d : Int) :
    nyOffsetMsAtMidnight y m d = 14400000 ∨ nyOffsetMsAtMidnight y m d = 17762000 ∨
      nyOffsetMsAtMidnight y m d = 18000000 := by
  unfold nyOffsetMsAtMidnight
  split_ifs <;> simp

/-- In the whole-hour standard-time era, the midnight offset is determined
by the daylight-saving state. -/
theorem nyOffsetMs_afterCutoff (y m d : Int)
    (h : nyStandardTimeStartDay ≤ daysFromCivil y m d) :
    nyOffsetMsAtMidnight y m d =
      if nyDstAtMidnight y m d then 14400000 else 18000000 := by
  unfold nyOffsetMsAtMidnight
  rw [if_neg (by omega)]

/-! ## Helper lemmas: strings and the date guard -/

/-- A non-empty string has positive length. -/
theorem strLength_pos (s : String) (h : s ≠ "") : 0 < s.length := by
  rcases s with ⟨l⟩
  cases l with
  | nil => exact absurd rfl h
  | cons c cs => simp [String.length]

/-- If either date message is non-empty, the joined date message is
non-empty. -/
theorem dateMessage_pos (m1 m2 : String) (h : ¬(m1 = "" ∧ m2 = "")) :
    0 < (String.intercalate "; " ([m1, m2].filter (fun m => m.length > 0))).length := by
  by_cases h1 : m1 = "" <;> by_cases h2 : m2 = ""
  · exact absurd ⟨h1, h2⟩ h
  · subst h1
    have hd : (decide (m2.length > 0)) = true := decide_eq_true (strLength_pos m2 h2)
    simp only [List.filter, hd]
    simpa [String.intercalate, String.intercalate.go] using strLength_pos m2 h2
  · subst h2
    have hd : (decide (m1.length > 0)) = true := decide_eq_true (strLength_pos m1 h1)
    simp only [List.filter, hd]
    simpa [String.intercalate, String.intercalate.go] using strLength_pos m1 h1
  · have hd1 : (decide (m1.length > 0)) = true := decide_eq_true (strLength_pos m1 h1)
    have hd2 : (decide (m2.length > 0)) = true := decide_eq_true (strLength_pos m2 h2)
    simp only [List.filter, hd1, hd2]
    have : String.intercalate "; " [m1, m2] = m1 ++ "; " ++ m2 := by
      simp [String.intercalate, String.intercalate.go]
    rw [this]
    have := strLength_pos m1 h1
    simp [String.length_append]
    omega

/-- With two exact-midnight dates, `getTransactions` proceeds past the date
guard into its core. -/
theorem getTransactions_validDates (env : Env) (st : ClientState)
    (ids : List String) (startMs endMs : Int)
    (hs : checkDate startMs = "") (he : checkDate endMs = "") :
    getTransactions env st ids startMs endMs =
      getTransactionsCore env st ids startMs endMs := by
  unfold getTransactions
  rw [hs, he]
  rfl

/-- With a time-of-day violation in either date, `getTransactions` fails on
the joined validation message, leaving the state untouched and performing no
fetch call. -/
theorem getTransactions_invalidDates (env : Env) (st : ClientState)
    (ids : List String) (startMs endMs : Int)
    (h : ¬(checkDate startMs = "" ∧ checkDate endMs = "")) :
    getTransactions env st ids startMs endMs =
      (.error ("Invalid date(s): " ++ String.intercalate "; "
        ([checkDate startMs, checkDate endMs].filter (fun m => m.length > 0))), st, []) := by
  unfold getTransactions
  rw [if_pos (dateMessage_pos (checkDate startMs) (checkDate endMs) h)]

/-! ## Helper lemmas: account cache and resolution -/

/-- A populated cache answers `getAccounts` directly: no fetch, no state
change. -/
theorem getAccounts_cached (env : Env) (st : ClientState) (m : AcctMap)
    (hst : st.accounts = some m) :
    getAccounts env st = (.ok m, st, []) := by
  rcases st with ⟨acc⟩
  cases acc with
  | none => cases hst
  | some m0 => cases Option.some.inj hst; rfl

/-- An unset cache makes `getAccounts` fetch once; on success the cache is
fully populated. -/
theorem getAccounts_fresh_ok (env : Env) (st : ClientState) (m : AcctMap)
    (hst : st.accounts = none) (hf : fetchAccounts env = .ok m) :
    getAccounts env st = (.ok m, ⟨some m⟩, [.acctList]) := by
  rcases st with ⟨acc⟩
  cases acc with
  | none => simp [getAccounts, hf]
  | some m0 => cases hst

/-- An unset cache makes `getAccounts` fetch once; on failure the cache is
left unset. -/
theorem getAccounts_fresh_err (env : Env) (st : ClientState) (e : String)
    (hst : st.accounts = none) (hf : fetchAccounts env = .error e) :
    getAccounts env st = (.error e, st, [.acctList]) := by
  rcases st with ⟨acc⟩
  cases acc with
  | none => simp [getAccounts, hf]
  | some m0 => cases hst

/-- A successful `getAccounts` result came either from the cache (no fetch)
or from one successful fresh fetch that populated the cache. -/
theorem getAccounts_ok_cases (env : Env) (st : ClientState) (m : AcctMap)
    (hav : (getAccounts env st).1 = .ok m) :
    (st.accounts = some m ∧ getAccounts env st = (.ok m, st, []))
    ∨ (st.accounts = none ∧ fetchAccounts env = .ok m ∧
        getAccounts env st = (.ok m, ⟨some m⟩, [.acctList])) := by
  rcases st with ⟨acc⟩
  cases acc with
  | some m0 =>
    left
    have hm : m0 = m := by simpa [getAccounts] using hav
    subst hm
    exact ⟨rfl, rfl⟩
  | none =>
    right
    cases hf : fetchAccounts env with
    | error e => simp [getAccounts, hf] at hav
    | ok m0 =>
      have hm : m0 = m := by simpa [getAccounts, hf] using hav
      subst hm
      refine ⟨rfl, ?_, ?_⟩ <;> simp [getAccounts, hf]

/-- Resolution with a populated cache: every lookup is a cache hit, the
accumulated map collects `jsMapGet` results in input order, and no fetch
occurs. -/
theorem resolveAccounts_cached (env : Env) (m : AcctMap) :
    ∀ (ids : List String) (dict : List (String × Option Account)) (st : ClientState),
      st.accounts = some m →
      resolveAccounts env st ids dict =
        (.ok (ids.foldl (fun d a => jsMapSet d a (jsMapGet m a)) dict), st, []) := by
  intro ids
  induction ids with
  | nil => intro dict st hst; rfl
  | cons a rest ih =>
    intro dict st hst
    have hga : getAccount env st a = (.ok (jsMapGet m a), st, []) := by
      unfold getAccount
      rw [getAccounts_cached env st m hst]
    simp only [resolveAccounts, hga]
    rw [ih (jsMapSet dict a (jsMapGet m a)) st hst]
    simp

/-- Resolution from an unset cache with a succeeding account fetch: exactly
one fetch, after which the cache is populated and the remaining lookups hit
it. -/
theorem resolveAccounts_fresh_ok (env : Env) (st : ClientState) (m : AcctMap)
    (a : String) (rest : List String) (dict : List (String × Option Account))
    (hst : st.accounts = none) (hf : fetchAccounts env = .ok m) :
    resolveAccounts env st (a :: rest) dict =
      (.ok ((a :: rest).foldl (fun d x => jsMapSet d x (jsMapGet m x)) dict),
        ⟨some m⟩, [.acctList]) := by
  have hga : getAccount env st a = (.ok (jsMapGet m a), ⟨some m⟩, [.acctList]) := by
    unfold getAccount
    rw [getAccounts_fresh_ok env st m hst hf]
  simp only [resolveAccounts, hga]
  rw [resolveAccounts_cached env m rest (jsMapSet dict a (jsMapGet m a)) ⟨some m⟩ rfl]
  simp

/-- Resolution from an unset cache with a failing account fetch: the failure
propagates from the first lookup, one fetch was attempted, the cache stays
unset. -/
theorem resolveAccounts_fresh_err (env : Env) (st : ClientState) (e : String)
    (a : String) (rest : List String) (dict : List (String × Option Account))
    (hst : st.accounts = none) (hf : fetchAccounts env = .error e) :
    resolveAccounts env st (a :: rest) dict = (.error e, st, [.acctList]) := by
  have hga : getAccount env st a = (.error e, st, [.acctList]) := by
    unfold getAccount
    rw [getAccounts_fresh_err env st e hst hf]
  simp only [resolveAccounts, hga]

/-! ## Helper lemmas: the identifier map and duplicate collapsing -/

/-- Setting key `a` to `f a` in a map whose entries are `(k, f k)` over
`keys` keeps the canonical shape: an existing key is overwritten in place
(with the same value), a new key is appended. -/
theorem jsMapSet_canonical (f : String → Option Account) (a : String) :
    ∀ keys : List String,
      jsMapSet (keys.map (fun k => (k, f k))) a (f a) =
        (if a ∈ keys then keys else keys ++ [a]).map (fun k => (k, f k)) := by
  intro keys
  induction keys with
  | nil => simp [jsMapSet]
  | cons k ks ih =>
    by_cases hk : k = a
    · subst hk
      simp [jsMapSet]
    · have hak : ¬(a = k) := fun h => hk h.symm
      simp only [List.map_cons, jsMapSet, if_neg hk, ih, List.mem_cons]
      by_cases hm : a ∈ ks
      · simp [hm, hak]
      · simp [hm, hak]

/-- Folding `set` over the identifiers from a canonical map yields the
canonical map over the first-occurrence key sequence. -/
theorem foldSet_canonical (f : String → Option Account) :
    ∀ (ids keys : List String),
      ids.foldl (fun d a => jsMapSet d a (f a)) (keys.map (fun k => (k, f k))) =
        (ids.foldl (fun acc a => if a ∈ acc then acc else acc ++ [a]) keys).map
          (fun k => (k, f k)) := by
  intro ids
  induction ids with
  | nil => intro keys; rfl
  | cons a rest ih =>
    intro keys
    simp only [List.foldl_cons]
    rw [jsMapSet_canonical f a keys]
    exact ih _

/-- Membership in the folded first-occurrence sequence. -/
theorem mem_dedup_fold (x : String) :
    ∀ (ids acc : List String),
      x ∈ ids.foldl (fun acc a => if a ∈ acc then acc else acc ++ [a]) acc ↔
        x ∈ acc ∨ x ∈ ids := by
  intro ids
  induction ids with
  | nil => intro acc; simp
  | cons a rest ih =>
    intro acc
    simp only [List.foldl_cons]
    rw [ih]
    by_cases ha : a ∈ acc
    · simp [ha]
      constructor
      · rintro (hx | hx)
        · exact Or.inl hx
        · exact Or.inr (Or.inr hx)
      · rintro (hx | hx | hx)
        · exact Or.inl hx
        · subst hx; exact Or.inl ha
        · exact Or.inr hx
    · simp [ha, List.mem_append]
      tauto

/-- An identifier occurs in the input iff it occurs in the first-occurrence
sequence. -/
theorem mem_dedupKeys (x : String) (ids : List String) :
    x ∈ dedupKeys ids ↔ x ∈ ids := by
  unfold dedupKeys
  rw [mem_dedup_fold]
  simp

/-- The unresolved identifiers of a canonical map, in order. -/
theorem dict_missing (f : String → Option Account) (l : List String) :
    ((l.map (fun a => (a, f a))).filter (fun p => p.2.isNone)).map (fun p => p.1) =
      l.filter (fun a => (f a).isNone) := by
  induction l with
  | nil => rfl
  | cons a rest ih =>
    cases hfa : (f a).isNone <;> simp [List.filter, hfa, ih]

/-- The resolved accounts of a canonical map, in order. -/
theorem dict_filterMap (f : String → Option Account) (l : List String) :
    (l.map (fun a => (a, f a))).filterMap (fun p => p.2) = l.filterMap f := by
  induction l with
  | nil => rfl
  | cons a rest ih =>
    cases hfa : f a <;> simp [List.filterMap_cons, hfa, ih]

/-! ## Helper lemmas: the template account entries -/

/-- Length of the built template-context entries. -/
theorem buildAcctDictsAux_length (n : Nat) :
    ∀ (l : List Account) (i : Nat), (buildAcctDictsAux n i l).length = l.length := by
  intro l
  induction l with
  | nil => intro i; rfl
  | cons a rest ih => intro i; simp [buildAcctDictsAux, ih]

/-- The entry numbers preserve the input accounts in order. -/
theorem buildAcctDictsAux_map_number (n : Nat) :
    ∀ (l : List Account) (i : Nat),
      (buildAcctDictsAux n i l).map TemplatedAcct.number = l.map Account.number := by
  intro l
  induction l with
  | nil => intro i; rfl
  | cons a rest ih => intro i; simp [buildAcctDictsAux, ih]

/-- The entry names are the base64-encoded input names in order. -/
theorem buildAcctDictsAux_map_name (n : Nat) :
    ∀ (l : List Account) (i : Nat),
      (buildAcctDictsAux n i l).map TemplatedAcct.name =
        l.map (fun a => encodeAccountName a.name) := by
  intro l
  induction l with
  | nil => intro i; rfl
  | cons a rest ih => intro i; simp [buildAcctDictsAux, ih]

/-- The `last` flag of the entry at position `j` (building from start index
`i`) is the test `i + j == n - 1`. -/
theorem buildAcctDictsAux_get_last (n : Nat) :
    ∀ (l : List Account) (i j : Nat) (hj : j < (buildAcctDictsAux n i l).length),
      ((buildAcctDictsAux n i l).get ⟨j, hj⟩).last = (i + j == n - 1) := by
  intro l
  induction l with
  | nil => intro i j hj; simp [buildAcctDictsAux] at hj
  | cons a rest ih =>
    intro i j hj
    cases j with
    | zero => simp [buildAcctDictsAux]
    | succ j0 =>
      have hj0 : j0 < (buildAcctDictsAux n (i + 1) rest).length := by
        simpa [buildAcctDictsAux] using hj
      have := ih (i + 1) j0 hj0
      simp only [buildAcctDictsAux, List.get_cons_succ]
      rw [this]
      have : i + 1 + j0 = i + (j0 + 1) := by omega
      rw [this]

/-! ## Helper lemmas: fetch-call counting -/

/-- Counting account-list calls distributes over trace concatenation. -/
theorem acctCallCount_append (l1 l2 : List FetchCall) :
    acctCallCount (l1 ++ l2) = acctCallCount l1 + acctCallCount l2 := by
  unfold acctCallCount
  exact List.countP_append _ _ _

/-- A transaction call does not count as an account-list call. -/
theorem acctCallCount_txns (opts : ReqOptions) (l : List FetchCall) :
    acctCallCount (FetchCall.txns opts :: l) = acctCallCount l := by
  unfold acctCallCount
  simp [List.countP_cons]

/-- The core's final state is the resolution stage's state, and the core
performs exactly the resolution stage's account-list calls (the transaction
call adds none). -/
theorem getTransactionsCore_shape (env : Env) (st : ClientState)
    (ids : List String) (startMs endMs : Int) :
    ∃ r st1 tr, resolveAccounts env st ids [] = (r, st1, tr)
      ∧ (getTransactionsCore env st ids startMs endMs).2.1 = st1
      ∧ acctCallCount (getTransactionsCore env st ids startMs endMs).2.2 =
          acctCallCount tr := by
  rcases hr : resolveAccounts env st ids [] with ⟨r, st1, tr⟩
  refine ⟨r, st1, tr, rfl, ?_, ?_⟩ <;>
    · unfold getTransactionsCore
      rw [hr]
      cases r with
      | error e => simp
      | ok dict =>
        simp only
        split_ifs
        · simp
        · cases henv : env.txnOutcome with
          | httpErr s t =>
            simp [doFetch, henv, acctCallCount_append, acctCallCount, List.countP_cons]
          | http200 b =>
            cases b with
            | malformed cause =>
              simp [doFetch, henv, acctCallCount_append, acctCallCount, List.countP_cons]
            | wellFormed resp =>
              simp [doFetch, henv, acctCallCount_append, acctCallCount, List.countP_cons]

/-! ## Claim theorems -/

/-- C7 counterexample: 1883-11-18 is a valid calendar day, its next day is
1883-11-19, and the difference between the encoded midnights of those two
consecutive days is 86638 seconds — 24 hours 3 minutes 58 seconds, across
the zone's changeover from local mean time (UTC−4:56:02) to standard time
(UTC−5:00) at 12:03:58 on 1883-11-18 — which is none of 23, 24, or 25
hours. -/
theorem c7_counterexample :
    validCivil 1883 11 18
    ∧ nextCivil 1883 11 18 = (1883, 11, 19)
    ∧ nyMidnightEpochSec 1883 11 19 - nyMidnightEpochSec 1883 11 18 = 86638
    ∧ ¬(nyMidnightEpochSec 1883 11 19 - nyMidnightEpochSec 1883 11 18 = 82800 ∨
        nyMidnightEpochSec 1883 11 19 - nyMidnightEpochSec 1883 11 18 = 86400 ∨
        nyMidnightEpochSec 1883 11 19 - nyMidnightEpochSec 1883 11 18 = 90000)
    ∧ fidelityDate ((-31455) * 86400000) = toString (nyMidnightEpochSec 1883 11 18) := by
  refine ⟨by decide, by decide, by decide, by decide, by decide⟩

/-- C7 (amended): for every valid calendar day, `fidelityDate` is
deterministic, renders the epoch seconds of that day's midnight in
America/New_York as a decimal string, and the encoded instant is strictly
increasing as the day advances; for every valid calendar day from
1883-11-19 on (the zone's whole-hour standard-time era), the
consecutive-day difference is 23, 24, or 25 hours in seconds, the 23- and
25-hour differences occurring exactly at the zone's daylight-saving
transitions. -/
theorem c7_fidelityDate_monotone_dst (ms y m d y2 m2 d2 : Int)
    (hciv : civilFromDays (ms / 86400000) = (y, m, d))
    (hv : validCivil y m d)
    (hnext : nextCivil y m d = (y2, m2, d2)) :
    fidelityDate ms = toString (nyMidnightEpochSec y m d)
    ∧ fidelityDate ms = fidelityDate ms
    ∧ nyMidnightEpochSec y m d < nyMidnightEpochSec y2 m2 d2
    ∧ (nyStandardTimeStartDay ≤ daysFromCivil y m d →
        (nyMidnightEpochSec y2 m2 d2 - nyMidnightEpochSec y m d = 82800 ∨
         nyMidnightEpochSec y2 m2 d2 - nyMidnightEpochSec y m d = 86400 ∨
         nyMidnightEpochSec y2 m2 d2 - nyMidnightEpochSec y m d = 90000)
        ∧ (nyMidnightEpochSec y2 m2 d2 - nyMidnightEpochSec y m d = 82800 ↔
            (nyDstAtMidnight y m d = false ∧ nyDstAtMidnight y2 m2 d2 = true))
        ∧ (nyMidnightEpochSec y2 m2 d2 - nyMidnightEpochSec y m d = 90000 ↔
            (nyDstAtMidnight y m d = true ∧ nyDstAtMidnight y2 m2 d2 = false))) := by
  have hstep := daysFromCivil_nextCivil y m d y2 m2 d2 hv hnext
  have h1 : fidelityDate ms = toString (nyMidnightEpochSec y m d) := by
    unfold fidelityDate
    rw [hciv]
    rfl
  refine ⟨h1, rfl, ?_, ?_⟩
  · rcases nyOffsetMs_cases y m d with h0 | h0 | h0 <;>
      rcases nyOffsetMs_cases y2 m2 d2 with h0' | h0' | h0' <;>
      · unfold nyMidnightEpochSec nyMidnightEpochMs
        rw [hstep, h0, h0']
        omega
  · intro hcut
    have hcut2 : nyStandardTimeStartDay ≤ daysFromCivil y2 m2 d2 := by omega
    have h0 := nyOffsetMs_afterCutoff y m d hcut
    have h0' := nyOffsetMs_afterCutoff y2 m2 d2 hcut2
    unfold nyMidnightEpochSec nyMidnightEpochMs
    rw [hstep, h0, h0']
    cases hb1 : nyDstAtMidnight y m d <;> cases hb2 : nyDstAtMidnight y2 m2 d2 <;>
      simp [hb1, hb2] <;> omega

/-- Witness for C7 (amended) at the 2024 spring transition: 2024-03-10 is a
valid calendar day in the standard-time era (the second Sunday of March
2024), and the step to 2024-03-11 is the 23-hour daylight-saving jump. -/
theorem c7_fidelityDate_monotone_dst_witness :
    fidelityDate (19792 * 86400000) = toString (nyMidnightEpochSec 2024 3 10)
    ∧ fidelityDate (19792 * 86400000) = fidelityDate (19792 * 86400000)
    ∧ nyMidnightEpochSec 2024 3 10 < nyMidnightEpochSec 2024 3 11
    ∧ nyStandardTimeStartDay ≤ daysFromCivil 2024 3 10
    ∧ (nyMidnightEpochSec 2024 3 11 - nyMidnightEpochSec 2024 3 10 = 82800 ∨
       nyMidnightEpochSec 2024 3 11 - nyMidnightEpochSec 2024 3 10 = 86400 ∨
       nyMidnightEpochSec 2024 3 11 - nyMidnightEpochSec 2024 3 10 = 90000)
    ∧ (nyMidnightEpochSec 2024 3 11 - nyMidnightEpochSec 2024 3 10 = 82800 ↔
        (nyDstAtMidnight 2024 3 10 = false ∧ nyDstAtMidnight 2024 3 11 = true))
    ∧ (nyMidnightEpochSec 2024 3 11 - nyMidnightEpochSec 2024 3 10 = 90000 ↔
        (nyDstAtMidnight 2024 3 10 = true ∧ nyDstAtMidnight 2024 3 11 = false)) := by
  have h := c7_fidelityDate_monotone_dst (19792 * 86400000) 2024 3 10 2024 3 11
    (by decide) (by decide) (by decide)
  have hi := h.2.2.2 (by decide)
  exact ⟨h.1, h.2.1, h.2.2.1, by decide, hi.1, hi.2.1, hi.2.2⟩

/-- C1 counterexample: with `start` one whole day after `end` (both exact
UTC midnights, so `start > end`), `getTransactions` does not fail with a
validation error — it proceeds to the transaction fetch and succeeds. The
source validates only the time-of-day components, never `start > end`. -/
theorem c1_counterexample :
    (86400000 : Int) > (0 : Int)
    ∧ checkDate 86400000 = ""
    ∧ checkDate 0 = ""
    ∧ (getTransactions
        (Env.mk (.http200 (.wellFormed (AccountsResp.mk "OK" [])))
          (.http200 (.wellFormed (TxResp.mk []))) 0)
        ⟨none⟩ [] 86400000 0).1 = .ok []
    ∧ (getTransactions
        (Env.mk (.http200 (.wellFormed (AccountsResp.mk "OK" [])))
          (.http200 (.wellFormed (TxResp.mk []))) 0)
        ⟨none⟩ [] 86400000 0).2.2 =
      [.txns (getTransactionsOptions [] 86400000 0)] := by
  refine ⟨by decide, by decide, by decide, by decide, by decide⟩

/-- C1 (amended): when `start` or `end` has a non-zero UTC
hour/minute/second/millisecond component, `getTransactions` fails with a
validation error whose message joins the violation message of every
offending date (not just the first), and performs no fetch call before
failing; the `start > end` relation is not validated. -/
theorem c1_time_component_validation (env : Env) (st : ClientState)
    (ids : List String) (startMs endMs : Int)
    (h : ¬(checkDate startMs = "" ∧ checkDate endMs = "")) :
    getTransactions env st ids startMs endMs =
      (.error ("Invalid date(s): " ++ String.intercalate "; "
        ([checkDate startMs, checkDate endMs].filter (fun m => m.length > 0))), st, [])
    ∧ (getTransactions env st ids startMs endMs).2.2 = [] := by
  have he := getTransactions_invalidDates env st ids startMs endMs h
  exact ⟨he, by rw [he]⟩

/-- Witness for C1 (amended) at `start` = 01:00:00.000 UTC (a one-hour
offset) and `end` = midnight. -/
theorem c1_time_component_validation_witness :
    ¬(checkDate 3600000 = "" ∧ checkDate 0 = "")
    ∧ (getTransactions
          (Env.mk (.http200 (.wellFormed (AccountsResp.mk "OK" [])))
            (.http200 (.wellFormed (TxResp.mk []))) 0)
          ⟨none⟩ [] 3600000 0 =
        (.error ("Invalid date(s): " ++ String.intercalate "; "
          ([checkDate 3600000, checkDate 0].filter (fun m => m.length > 0))),
          ⟨none⟩, [])
        ∧ (getTransactions
            (Env.mk (.http200 (.wellFormed (AccountsResp.mk "OK" [])))
              (.http200 (.wellFormed (TxResp.mk []))) 0)
            ⟨none⟩ [] 3600000 0).2.2 = []) :=
  ⟨by decide,
    c1_time_component_validation
      (Env.mk (.http200 (.wellFormed (AccountsResp.mk "OK" [])))
        (.http200 (.wellFormed (TxResp.mk []))) 0)
      ⟨none⟩ [] 3600000 0 (by decide)⟩

/-- C3: normalization of a raw history entry — the amount is obtained by
deleting commas and dollar signs, absent when the remainder is blank,
otherwise the parsed decimal rounded to two places (in cents; never a
NaN-like value), the order number is the raw field when non-empty and absent
otherwise, and pending passes `intradayInd` through; in particular
`"$1,234.56"` maps to 1234.56 dollars, `""` and `"N/A"` map to absent, and
an empty order number maps to absent. -/
theorem c3_history_normalization (tz : Int) (h : HistoryEntry) :
    (historyEntryToTransaction tz h).amount = specAmount h.amount
    ∧ (historyEntryToTransaction tz h).order_number = specOrderNumber h.orderNumber
    ∧ (historyEntryToTransaction tz h).pending = h.intradayInd
    ∧ specAmount "$1,234.56" = some 123456
    ∧ centsToDollars 123456 = 1234.56
    ∧ specAmount "" = none
    ∧ specAmount "N/A" = none
    ∧ specOrderNumber "" = none := by
  refine ⟨?_, rfl, rfl, by decide, by norm_num [centsToDollars], by decide, by decide, by decide⟩
  cases hb : jsIsBlank (stripCommaDollar h.amount) <;>
    simp [historyEntryToTransaction, specAmount, hb]

/-- C4 counterexample: the same raw history entry normalized in two
environments (UTC, and a fixed UTC−05:00 zone like New York in winter)
yields two different dates for the date-only upstream string `2024-01-15`
(which `new Date` parses as UTC midnight while the calendar getters are
local-time accessors) — the result is not independent of the environment. -/
theorem c4_counterexample :
    (historyEntryToTransaction 0
      (HistoryEntry.mk "111" "" "2024-01-15" "interest" true "")).date =
        some (19737 * 86400000)
    ∧ (historyEntryToTransaction (-300)
        (HistoryEntry.mk "111" "" "2024-01-15" "interest" true "")).date =
        some (19736 * 86400000)
    ∧ historyEntryToTransaction 0
        (HistoryEntry.mk "111" "" "2024-01-15" "interest" true "") ≠
      historyEntryToTransaction (-300)
        (HistoryEntry.mk "111" "" "2024-01-15" "interest" true "") := by
  refine ⟨by decide, by decide, by decide⟩

/-- C4 (amended): within a fixed environment, the normalized date is the
UTC-midnight instant rebuilt from the calendar day of the parsed upstream
instant as observed in the environment's local zone: two entries whose
parsed instants fall on the same environment-local calendar day normalize to
the same date (any time-of-day artifact is discarded), and every normalized
date is an exact UTC midnight. The result depends on the environment's zone
(see the counterexample), not only on the raw string. -/
theorem c4_local_calendar_day (tz : Int) (h1 h2 : HistoryEntry) (ms1 ms2 : Int)
    (hp1 : jsDateParse h1.date = some ms1) (hp2 : jsDateParse h2.date = some ms2)
    (hday : (ms1 + tz * 60000) / 86400000 = (ms2 + tz * 60000) / 86400000) :
    (historyEntryToTransaction tz h1).date = (historyEntryToTransaction tz h2).date
    ∧ (∀ dms, (historyEntryToTransaction tz h1).date = some dms →
        dms % 86400000 = 0) := by
  constructor
  · simp only [historyEntryToTransaction, hp1, hp2, Option.map]
    rw [hday]
  · intro dms hdms
    simp only [historyEntryToTransaction, hp1, Option.map] at hdms
    rcases hc : civilFromDays ((ms1 + tz * 60000) / 86400000) with ⟨y, m, d⟩
    rw [hc] at hdms
    simp only at hdms
    cases hdms
    exact Int.mul_emod_left (daysFromCivil y m d) 86400000

/-- Witness for C4 (amended): two distinct entries carrying the same
calendar-day string, normalized in the UTC environment. -/
theorem c4_local_calendar_day_witness :
    jsDateParse (HistoryEntry.mk "111" "" "2024-01-15" "interest" true "").date =
      some (19737 * 86400000)
    ∧ jsDateParse (HistoryEntry.mk "222" "5" "2024-01-15" "fee" false "A1").date =
      some (19737 * 86400000)
    ∧ ((19737 * 86400000 + 0 * 60000) / 86400000 : Int) =
      (19737 * 86400000 + 0 * 60000) / 86400000
    ∧ ((historyEntryToTransaction 0
          (HistoryEntry.mk "111" "" "2024-01-15" "interest" true "")).date =
        (historyEntryToTransaction 0
          (HistoryEntry.mk "222" "5" "2024-01-15" "fee" false "A1")).date
      ∧ (∀ dms,
          (historyEntryToTransaction 0
            (HistoryEntry.mk "111" "" "2024-01-15" "interest" true "")).date =
              some dms → dms % 86400000 = 0)) :=
  ⟨by decide, by decide, rfl,
    c4_local_calendar_day 0 (HistoryEntry.mk "111" "" "2024-01-15" "interest" true "")
      (HistoryEntry.mk "222" "5" "2024-01-15" "fee" false "A1")
      (19737 * 86400000) (19737 * 86400000) (by decide) (by decide) rfl⟩

/-- C9: when the account-summary response's backend-status field is not,
case-insensitively, `"ok"`, `getAccounts` fails with a `FidelityError`
whose message reports the non-ok status (wrapped, by the enclosing
try/catch of the source, in the parse-failure prefix), and the account
cache remains unset; when the status lowercases to `"ok"`, no
backend-status error is raised and the fetched map is cached. -/
theorem c9_backend_status (env : Env) (st : ClientState) (status : String)
    (assets : List (String × String))
    (hresp : env.acctOutcome = .http200 (.wellFormed (AccountsResp.mk status assets)))
    (hcache : st.accounts = none) :
    (jsToLower status ≠ "ok" →
      getAccounts env st =
        (.error ("Failed to parse get_accounts response: " ++
          ("Fidelity backend not ok " ++ status)), st, [.acctList])
      ∧ (getAccounts env st).2.1.accounts = none)
    ∧ (jsToLower status = "ok" →
      getAccounts env st =
        (.ok (buildAccountMap assets), ⟨some (buildAccountMap assets)⟩, [.acctList])) := by
  constructor
  · intro hne
    have hf : fetchAccounts env =
        .error ("Failed to parse get_accounts response: " ++
          ("Fidelity backend not ok " ++ status)) := by
      unfold fetchAccounts doFetch
      rw [hresp]
      simp only
      rw [if_pos hne]
    have he := getAccounts_fresh_err env st _ hcache hf
    exact ⟨he, by rw [he]; exact hcache⟩
  · intro heq
    have hf : fetchAccounts env = .ok (buildAccountMap assets) := by
      unfold fetchAccounts doFetch
      rw [hresp]
      simp only
      rw [if_neg (by simp [heq])]
    exact getAccounts_fresh_ok env st _ hcache hf

/-- Witness for C9: a `"DOWN"` status fails with a message reporting it and
leaves the cache unset; an `"OK"` status (case-insensitively ok) caches the
fetched map. -/
theorem c9_backend_status_witness :
    (jsToLower "DOWN" ≠ "ok"
      ∧ getAccounts
          (Env.mk (.http200 (.wellFormed (AccountsResp.mk "DOWN" [("111", "Brokerage")])))
            (.http200 (.wellFormed (TxResp.mk []))) 0) ⟨none⟩ =
        (.error ("Failed to parse get_accounts response: " ++
          ("Fidelity backend not ok " ++ "DOWN")), ⟨none⟩, [.acctList])
      ∧ (getAccounts
          (Env.mk (.http200 (.wellFormed (AccountsResp.mk "DOWN" [("111", "Brokerage")])))
            (.http200 (.wellFormed (TxResp.mk []))) 0) ⟨none⟩).2.1.accounts = none)
    ∧ (jsToLower "OK" = "ok"
      ∧ getAccounts
          (Env.mk (.http200 (.wellFormed (AccountsResp.mk "OK" [("111", "Brokerage")])))
            (.http200 (.wellFormed (TxResp.mk []))) 0) ⟨none⟩ =
        (.ok (buildAccountMap [("111", "Brokerage")]),
          ⟨some (buildAccountMap [("111", "Brokerage")])⟩, [.acctList])) :=
  ⟨⟨by decide,
      (c9_backend_status
        (Env.mk (.http200 (.wellFormed (AccountsResp.mk "DOWN" [("111", "Brokerage")])))
          (.http200 (.wellFormed (TxResp.mk []))) 0) ⟨none⟩ "DOWN" [("111", "Brokerage")]
        rfl rfl).1 (by decide)⟩,
    ⟨by decide,
      (c9_backend_status
        (Env.mk (.http200 (.wellFormed (AccountsResp.mk "OK" [("111", "Brokerage")])))
          (.http200 (.wellFormed (TxResp.mk []))) 0) ⟨none⟩ "OK" [("111", "Brokerage")]
        rfl rfl).2 (by decide)⟩⟩

/-- C10: for the empty identifier sequence with a valid (exact-midnight)
range and an unset cache, `getTransactions` performs no account-list fetch
(the cache stays unset, the state is untouched), raises no account-not-found
error — its result is exactly the transaction-fetch stage outcome — and
issues the transaction request built from the empty account list, whose
`acctDetailList` is empty. -/
theorem c10_empty_identifiers (env : Env) (st : ClientState) (startMs endMs : Int)
    (hs : checkDate startMs = "") (he : checkDate endMs = "")
    (hcache : st.accounts = none) :
    (getTransactions env st [] startMs endMs).2.1 = st
    ∧ (getTransactions env st [] startMs endMs).2.1.accounts = none
    ∧ (getTransactions env st [] startMs endMs).2.2 =
        [.txns (getTransactionsOptions [] startMs endMs)]
    ∧ (getTransactionsBody [] startMs endMs).acctDetailList = []
    ∧ (getTransactions env st [] startMs endMs).1 = txnStageResult env := by
  rw [getTransactions_validDates env st [] startMs endMs hs he]
  unfold getTransactionsCore txnStageResult
  cases henv : env.txnOutcome with
  | httpErr s t =>
    simp [resolveAccounts, doFetch, henv, hcache, getTransactionsBody, buildAcctDictsAux]
  | http200 b =>
    cases b with
    | malformed cause =>
      simp [resolveAccounts, doFetch, henv, hcache, getTransactionsBody, buildAcctDictsAux]
    | wellFormed resp =>
      simp [resolveAccounts, doFetch, henv, hcache, getTransactionsBody, buildAcctDictsAux]

/-- Witness for C10 on a concrete environment delivering one history
entry. -/
theorem c10_empty_identifiers_witness :
    checkDate 0 = "" ∧ checkDate 86400000 = ""
    ∧ ((getTransactions
          (Env.mk (.http200 (.wellFormed (AccountsResp.mk "OK" [])))
            (.http200 (.wellFormed
              (TxResp.mk [HistoryEntry.mk "111" "$5.00" "2024-01-15" "fee" false "A1"])))
            0) ⟨none⟩ [] 0 86400000).2.1 = (⟨none⟩ : ClientState)
      ∧ ((getTransactions
          (Env.mk (.http200 (.wellFormed (AccountsResp.mk "OK" [])))
            (.http200 (.wellFormed
              (TxResp.mk [HistoryEntry.mk "111" "$5.00" "2024-01-15" "fee" false "A1"])))
            0) ⟨none⟩ [] 0 86400000).2.1).accounts = none
      ∧ (getTransactions
          (Env.mk (.http200 (.wellFormed (AccountsResp.mk "OK" [])))
            (.http200 (.wellFormed
              (TxResp.mk [HistoryEntry.mk "111" "$5.00" "2024-01-15" "fee" false "A1"])))
            0) ⟨none⟩ [] 0 86400000).2.2 =
          [.txns (getTransactionsOptions [] 0 86400000)]
      ∧ (getTransactionsBody [] 0 86400000).acctDetailList = []
      ∧ (getTransactions
          (Env.mk (.http200 (.wellFormed (AccountsResp.mk "OK" [])))
            (.http200 (.wellFormed
              (TxResp.mk [HistoryEntry.mk "111" "$5.00" "2024-01-15" "fee" false "A1"])))
            0) ⟨none⟩ [] 0 86400000).1 =
          txnStageResult
            (Env.mk (.http200 (.wellFormed (AccountsResp.mk "OK" [])))
              (.http200 (.wellFormed
                (TxResp.mk [HistoryEntry.mk "111" "$5.00" "2024-01-15" "fee" false "A1"])))
              0)) :=
  ⟨by decide, by decide,
    c10_empty_identifiers
      (Env.mk (.http200 (.wellFormed (AccountsResp.mk "OK" [])))
        (.http200 (.wellFormed
          (TxResp.mk [HistoryEntry.mk "111" "$5.00" "2024-01-15" "fee" false "A1"])))
        0) ⟨none⟩ 0 86400000 (by decide) (by decide) rfl⟩

/-! ## Helper lemmas: the resolution stage of getTransactionsCore -/

/-- Appending a final element pins the last trace entry. -/
theorem getLastQ_append_singleton {α : Type} (l : List α) (a : α) :
    (l ++ [a]).getLast? = some a := by
  induction l with
  | nil => rfl
  | cons x xs ih =>
    cases hxs : xs ++ [a] with
    | nil => exact absurd hxs (by simp)
    | cons y ys =>
      rw [List.cons_append, hxs, List.getLast?_cons_cons, ← hxs, ih]

/-- Mapping a never-`none` function with `filterMap` preserves the
length. -/
theorem filterMap_allSome_length {α β : Type} (f : α → Option β) :
    ∀ l : List α, (∀ a ∈ l, f a ≠ none) → (l.filterMap f).length = l.length := by
  intro l
  induction l with
  | nil => intro _; rfl
  | cons a rest ih =>
    intro h
    cases hfa : f a with
    | none => exact absurd hfa (h a (List.mem_cons_self a rest))
    | some b =>
      simp only [List.filterMap_cons, hfa, List.length_cons]
      rw [ih (fun x hx => h x (List.mem_cons_of_mem a hx))]

/-- Filtering for unresolved identifiers yields nothing when everything
resolves. -/
theorem filter_isNone_nil (f : String → Option Account) :
    ∀ l : List String, (∀ a ∈ l, f a ≠ none) →
      l.filter (fun a => (f a).isNone) = [] := by
  intro l
  induction l with
  | nil => intro _; rfl
  | cons a rest ih =>
    intro h
    cases hfa : f a with
    | none => exact absurd hfa (h a (List.mem_cons_self a rest))
    | some b =>
      simp only [List.filter, hfa, Option.isNone_some]
      exact ih (fun x hx => h x (List.mem_cons_of_mem a hx))

/-- When `getAccounts` would deliver map `m`, the resolution loop succeeds
with the canonical identifier map over the first-occurrence key sequence,
performing only account-list fetches. -/
theorem resolveAccounts_avail (env : Env) (st : ClientState) (m : AcctMap)
    (ids : List String) (hav : (getAccounts env st).1 = .ok m) :
    ∃ st1 tr,
      resolveAccounts env st ids [] =
        (.ok ((dedupKeys ids).map (fun a => (a, jsMapGet m a))), st1, tr)
      ∧ (∀ c ∈ tr, c = FetchCall.acctList) := by
  have hfold : ids.foldl (fun d a => jsMapSet d a (jsMapGet m a)) [] =
      (dedupKeys ids).map (fun a => (a, jsMapGet m a)) := by
    have h := foldSet_canonical (jsMapGet m) ids []
    simpa [dedupKeys] using h
  rcases getAccounts_ok_cases env st m hav with ⟨hst, _⟩ | ⟨hst, hf, _⟩
  · refine ⟨st, [], ?_, by simp⟩
    rw [resolveAccounts_cached env m ids [] st hst, hfold]
  · cases ids with
    | nil => exact ⟨st, [], rfl, by simp⟩
    | cons a rest =>
      refine ⟨⟨some m⟩, [.acctList], ?_, by simp⟩
      rw [resolveAccounts_fresh_ok env st m a rest [] hst hf, hfold]

/-- When every identifier resolves, `getTransactionsCore` reaches the
transaction fetch: its result is the transaction-stage outcome and its final
fetch call carries the options built from the resolved accounts — one per
distinct identifier, in first-occurrence order. -/
theorem getTransactionsCore_allResolved (env : Env) (st : ClientState)
    (ids : List String) (startMs endMs : Int) (m : AcctMap)
    (hav : (getAccounts env st).1 = .ok m)
    (hres : ∀ a ∈ ids, jsMapGet m a ≠ none) :
    ∃ st1 tr,
      getTransactionsCore env st ids startMs endMs =
        (txnStageResult env, st1,
          tr ++ [.txns (getTransactionsOptions
            ((dedupKeys ids).filterMap (fun a => jsMapGet m a)) startMs endMs)])
      ∧ (∀ c ∈ tr, c = FetchCall.acctList) := by
  obtain ⟨st1, tr, heq, htr⟩ := resolveAccounts_avail env st m ids hav
  refine ⟨st1, tr, ?_, htr⟩
  have hresd : ∀ a ∈ dedupKeys ids, jsMapGet m a ≠ none := by
    intro a ha
    exact hres a ((mem_dedupKeys a ids).mp ha)
  have hmiss : (((dedupKeys ids).map (fun a => (a, jsMapGet m a))).filter
      (fun p => p.2.isNone)).map (fun p => p.1) = [] := by
    rw [dict_missing]
    exact filter_isNone_nil (jsMapGet m) (dedupKeys ids) hresd
  unfold getTransactionsCore
  rw [heq]
  simp only [hmiss, List.length_nil, gt_iff_lt, lt_irrefl, if_false, dict_filterMap]
  unfold txnStageResult
  cases henv : env.txnOutcome with
  | httpErr s t => simp [doFetch, henv]
  | http200 b =>
    cases b with
    | malformed cause => simp [doFetch, henv]
    | wellFormed resp => simp [doFetch, henv]

/-- C2 counterexample: the duplicated identifier sequence `["111", "111"]`
(both occurrences resolving) produces a transaction request built from a
single resolved entry — the `Map` the source accumulates resolutions in
collapses duplicate keys — not one entry per occurrence. -/
theorem c2_counterexample :
    (getTransactions
        (Env.mk (.http200 (.wellFormed (AccountsResp.mk "OK" [("111", "Brokerage")])))
          (.http200 (.wellFormed (TxResp.mk []))) 0)
        ⟨none⟩ ["111", "111"] 0 0).2.2 =
      [.acctList, .txns (getTransactionsOptions [Account.mk "111" "Brokerage"] 0 0)]
    ∧ (getTransactionsBody [Account.mk "111" "Brokerage"] 0 0).acctDetailList.length = 1
    ∧ (["111", "111"] : List String).length = 2 := by
  refine ⟨by decide, by decide, by decide⟩

/-- C2 (amended): for identifier sequences whose identifiers all resolve,
`getTransactions` builds its transaction request from one resolved entry per
distinct identifier — duplicates are collapsed by the identifier map — with
the distinct identifiers kept in first-occurrence input order. -/
theorem c2_duplicate_identifiers_collapsed (env : Env) (st : ClientState)
    (ids : List String) (startMs endMs : Int) (m : AcctMap)
    (hs : checkDate startMs = "") (he : checkDate endMs = "")
    (hav : (getAccounts env st).1 = .ok m)
    (hres : ∀ a ∈ ids, jsMapGet m a ≠ none) :
    (getTransactions env st ids startMs endMs).2.2.getLast? =
      some (.txns (getTransactionsOptions
        ((dedupKeys ids).filterMap (fun a => jsMapGet m a)) startMs endMs))
    ∧ ((dedupKeys ids).filterMap (fun a => jsMapGet m a)).length =
        (dedupKeys ids).length := by
  have hresd : ∀ a ∈ dedupKeys ids, jsMapGet m a ≠ none := by
    intro a ha
    exact hres a ((mem_dedupKeys a ids).mp ha)
  refine ⟨?_, filterMap_allSome_length (jsMapGet m) (dedupKeys ids) hresd⟩
  rw [getTransactions_validDates env st ids startMs endMs hs he]
  obtain ⟨st1, tr, heq, _⟩ :=
    getTransactionsCore_allResolved env st ids startMs endMs m hav hres
  rw [heq]
  exact getLastQ_append_singleton tr _

/-- Witness for C2 (amended) on the duplicated sequence `["111", "111"]`. -/
theorem c2_duplicate_identifiers_collapsed_witness :
    ((getTransactions
        (Env.mk (.http200 (.wellFormed (AccountsResp.mk "OK" [("111", "Brokerage")])))
          (.http200 (.wellFormed (TxResp.mk []))) 0)
        ⟨none⟩ ["111", "111"] 0 0).2.2.getLast? =
      some (.txns (getTransactionsOptions
        ((dedupKeys ["111", "111"]).filterMap
          (fun a => jsMapGet (buildAccountMap [("111", "Brokerage")]) a)) 0 0))
    ∧ ((dedupKeys ["111", "111"]).filterMap
        (fun a => jsMapGet (buildAccountMap [("111", "Brokerage")]) a)).length =
        (dedupKeys ["111", "111"]).length) :=
  c2_duplicate_identifiers_collapsed
    (Env.mk (.http200 (.wellFormed (AccountsResp.mk "OK" [("111", "Brokerage")])))
      (.http200 (.wellFormed (TxResp.mk []))) 0)
    ⟨none⟩ ["111", "111"] 0 0 (buildAccountMap [("111", "Brokerage")])
    (by decide) (by decide) (by decide) (by decide)

/-- C5: when at least one identifier is absent from the resolved account
map, `getTransactions` fails with an error naming the missing identifiers
joined by commas — every unresolved identifier of the input appears in that
list — and never performs the transaction-fetch call; only the account-list
fetch (recorded by `getAccounts`) may have occurred. -/
theorem c5_missing_identifiers (env : Env) (st : ClientState)
    (ids : List String) (startMs endMs : Int) (m : AcctMap)
    (hs : checkDate startMs = "") (he : checkDate endMs = "")
    (hav : (getAccounts env st).1 = .ok m)
    (hmiss : ∃ a, a ∈ ids ∧ jsMapGet m a = none) :
    getTransactions env st ids startMs endMs =
      (.error ("Account(s) not found: " ++ String.intercalate ", "
        ((dedupKeys ids).filter (fun a => (jsMapGet m a).isNone))),
        (getAccounts env st).2.1, (getAccounts env st).2.2)
    ∧ (∀ a, a ∈ ids → jsMapGet m a = none →
        a ∈ (dedupKeys ids).filter (fun a => (jsMapGet m a).isNone))
    ∧ (∀ opts, FetchCall.txns opts ∉ (getTransactions env st ids startMs endMs).2.2) := by
  rcases hmiss with ⟨a0, ha0, hm0⟩
  have hmem0 : a0 ∈ (dedupKeys ids).filter (fun a => (jsMapGet m a).isNone) :=
    List.mem_filter.mpr ⟨(mem_dedupKeys a0 ids).mpr ha0, by simp [hm0]⟩
  have hne : ids ≠ [] := by
    intro hnil
    subst hnil
    exact (List.not_mem_nil a0) ha0
  have hpos : 0 < ((dedupKeys ids).filter (fun a => (jsMapGet m a).isNone)).length :=
    List.length_pos.mpr (fun hnil => by rw [hnil] at hmem0; exact (List.not_mem_nil a0) hmem0)
  have hfold : ids.foldl (fun d a => jsMapSet d a (jsMapGet m a)) [] =
      (dedupKeys ids).map (fun a => (a, jsMapGet m a)) := by
    have h := foldSet_canonical (jsMapGet m) ids []
    simpa [dedupKeys] using h
  have hmain : getTransactions env st ids startMs endMs =
      (.error ("Account(s) not found: " ++ String.intercalate ", "
        ((dedupKeys ids).filter (fun a => (jsMapGet m a).isNone))),
        (getAccounts env st).2.1, (getAccounts env st).2.2) := by
    rw [getTransactions_validDates env st ids startMs endMs hs he]
    rcases getAccounts_ok_cases env st m hav with ⟨hst, heqA⟩ | ⟨hst, hf, heqA⟩
    · have hr := resolveAccounts_cached env m ids [] st hst
      rw [hfold] at hr
      unfold getTransactionsCore
      rw [hr, heqA]
      simp only [dict_missing, if_pos hpos]
    · cases ids with
      | nil => exact absurd rfl hne
      | cons a rest =>
        have hr := resolveAccounts_fresh_ok env st m a rest [] hst hf
        rw [hfold] at hr
        unfold getTransactionsCore
        rw [hr, heqA]
        simp only [dict_missing, if_pos hpos]
  refine ⟨hmain, ?_, ?_⟩
  · intro a ha hma
    exact List.mem_filter.mpr ⟨(mem_dedupKeys a ids).mpr ha, by simp [hma]⟩
  · intro opts hopts
    rw [hmain] at hopts
    rcases getAccounts_ok_cases env st m hav with ⟨_, heqA⟩ | ⟨_, _, heqA⟩ <;>
      rw [heqA] at hopts <;> simp at hopts

/-- Witness for C5: the sequence `["999", "111", "999"]` against a resolved
account list containing only `111`. -/
theorem c5_missing_identifiers_witness :
    (getTransactions
        (Env.mk (.http200 (.wellFormed (AccountsResp.mk "OK" [("111", "Brokerage")])))
          (.http200 (.wellFormed (TxResp.mk []))) 0)
        ⟨none⟩ ["999", "111", "999"] 0 0 =
      (.error ("Account(s) not found: " ++ String.intercalate ", "
        ((dedupKeys ["999", "111", "999"]).filter
          (fun a => (jsMapGet (buildAccountMap [("111", "Brokerage")]) a).isNone))),
        (getAccounts
          (Env.mk (.http200 (.wellFormed (AccountsResp.mk "OK" [("111", "Brokerage")])))
            (.http200 (.wellFormed (TxResp.mk []))) 0) ⟨none⟩).2.1,
        (getAccounts
          (Env.mk (.http200 (.wellFormed (AccountsResp.mk "OK" [("111", "Brokerage")])))
            (.http200 (.wellFormed (TxResp.mk []))) 0) ⟨none⟩).2.2))
    ∧ (∀ a, a ∈ (["999", "111", "999"] : List String) →
        jsMapGet (buildAccountMap [("111", "Brokerage")]) a = none →
        a ∈ (dedupKeys ["999", "111", "999"]).filter
          (fun a => (jsMapGet (buildAccountMap [("111", "Brokerage")]) a).isNone))
    ∧ (∀ opts, FetchCall.txns opts ∉
        (getTransactions
          (Env.mk (.http200 (.wellFormed (AccountsResp.mk "OK" [("111", "Brokerage")])))
            (.http200 (.wellFormed (TxResp.mk []))) 0)
          ⟨none⟩ ["999", "111", "999"] 0 0).2.2) :=
  c5_missing_identifiers
    (Env.mk (.http200 (.wellFormed (AccountsResp.mk "OK" [("111", "Brokerage")])))
      (.http200 (.wellFormed (TxResp.mk []))) 0)
    ⟨none⟩ ["999", "111", "999"] 0 0 (buildAccountMap [("111", "Brokerage")])
    (by decide) (by decide) (by decide) ⟨"999", by decide, by decide⟩

/-- Any single resolution run performs at most one account-list fetch. -/
theorem resolveAccounts_count_le_one (env : Env) (st : ClientState)
    (ids : List String) (dict : List (String × Option Account)) :
    acctCallCount (resolveAccounts env st ids dict).2.2 ≤ 1 := by
  rcases st with ⟨acc⟩
  cases acc with
  | some m =>
    rw [resolveAccounts_cached env m ids dict ⟨some m⟩ rfl]
    exact Nat.zero_le 1
  | none =>
    cases ids with
    | nil => exact Nat.zero_le 1
    | cons a rest =>
      cases hf : fetchAccounts env with
      | error e =>
        rw [resolveAccounts_fresh_err env ⟨none⟩ e a rest dict rfl hf]
        exact Nat.le_refl 1
      | ok m =>
        rw [resolveAccounts_fresh_ok env ⟨none⟩ m a rest dict rfl hf]
        exact Nat.le_refl 1

/-- C6: the account cache is populated by exactly one account-list fetch —
a cache hit answers without fetching and preserves the state, an unset cache
triggers exactly one fetch whose success fully populates the cache and whose
failure leaves it unset (so the next call retries from scratch), any
`getTransactions` call performs at most one account-list fetch regardless of
how many identifiers it resolves, a call starting from a populated cache
performs none, and a first call from an unset cache with a succeeding fetch
performs exactly one and leaves the cache populated for later calls. -/
theorem c6_account_cache_once (env : Env) (st : ClientState) (m : AcctMap)
    (e : String) (ids : List String) (startMs endMs : Int) :
    (st.accounts = some m → getAccounts env st = (.ok m, st, []))
    ∧ (st.accounts = none → fetchAccounts env = .ok m →
        getAccounts env st = (.ok m, ⟨some m⟩, [.acctList]))
    ∧ (st.accounts = none → fetchAccounts env = .error e →
        getAccounts env st = (.error e, st, [.acctList]))
    ∧ (st.accounts = some m →
        acctCallCount (getTransactions env st ids startMs endMs).2.2 = 0
        ∧ (getTransactions env st ids startMs endMs).2.1 = st)
    ∧ acctCallCount (getTransactions env st ids startMs endMs).2.2 ≤ 1
    ∧ (st.accounts = none → fetchAccounts env = .ok m →
        checkDate startMs = "" → checkDate endMs = "" → ids ≠ [] →
        acctCallCount (getTransactions env st ids startMs endMs).2.2 = 1
        ∧ (getTransactions env st ids startMs endMs).2.1 = ⟨some m⟩) := by
  refine ⟨getAccounts_cached env st m, getAccounts_fresh_ok env st m,
    getAccounts_fresh_err env st e, ?_, ?_, ?_⟩
  · intro hst
    by_cases hd : checkDate startMs = "" ∧ checkDate endMs = ""
    · rw [getTransactions_validDates env st ids startMs endMs hd.1 hd.2]
      obtain ⟨r, st1, tr, hr, hst1, hcnt⟩ :=
        getTransactionsCore_shape env st ids startMs endMs
      rw [resolveAccounts_cached env m ids [] st hst] at hr
      cases hr
      exact ⟨by rw [hcnt]; rfl, hst1⟩
    · rw [getTransactions_invalidDates env st ids startMs endMs hd]
      exact ⟨rfl, rfl⟩
  · by_cases hd : checkDate startMs = "" ∧ checkDate endMs = ""
    · rw [getTransactions_validDates env st ids startMs endMs hd.1 hd.2]
      obtain ⟨r, st1, tr, hr, hst1, hcnt⟩ :=
        getTransactionsCore_shape env st ids startMs endMs
      rw [hcnt]
      have := resolveAccounts_count_le_one env st ids []
      rw [hr] at this
      exact this
    · rw [getTransactions_invalidDates env st ids startMs endMs hd]
      exact Nat.zero_le 1
  · intro hst hf hs he hne
    rw [getTransactions_validDates env st ids startMs endMs hs he]
    obtain ⟨r, st1, tr, hr, hst1, hcnt⟩ :=
      getTransactionsCore_shape env st ids startMs endMs
    cases ids with
    | nil => exact absurd rfl hne
    | cons a rest =>
      rw [resolveAccounts_fresh_ok env st m a rest [] hst hf] at hr
      cases hr
      exact ⟨by rw [hcnt]; rfl, hst1⟩

/-- Witness for C6: a fresh client fetches once while resolving `111`, ends
with a populated cache, and a subsequent `getAccounts` on the populated
state performs no fetch. -/
theorem c6_account_cache_once_witness :
    (acctCallCount
        (getTransactions
          (Env.mk (.http200 (.wellFormed (AccountsResp.mk "OK" [("111", "Brokerage")])))
            (.http200 (.wellFormed (TxResp.mk []))) 0)
          ⟨none⟩ ["111"] 0 0).2.2 = 1
      ∧ (getTransactions
          (Env.mk (.http200 (.wellFormed (AccountsResp.mk "OK" [("111", "Brokerage")])))
            (.http200 (.wellFormed (TxResp.mk []))) 0)
          ⟨none⟩ ["111"] 0 0).2.1 =
        ⟨some (buildAccountMap [("111", "Brokerage")])⟩)
    ∧ getAccounts
        (Env.mk (.http200 (.wellFormed (AccountsResp.mk "OK" [("111", "Brokerage")])))
          (.http200 (.wellFormed (TxResp.mk []))) 0)
        ⟨some (buildAccountMap [("111", "Brokerage")])⟩ =
      (.ok (buildAccountMap [("111", "Brokerage")]),
        ⟨some (buildAccountMap [("111", "Brokerage")])⟩, []) :=
  ⟨(c6_account_cache_once
      (Env.mk (.http200 (.wellFormed (AccountsResp.mk "OK" [("111", "Brokerage")])))
        (.http200 (.wellFormed (TxResp.mk []))) 0)
      ⟨none⟩ (buildAccountMap [("111", "Brokerage")]) "e" ["111"] 0 0).2.2.2.2.2
      rfl (by decide) (by decide) (by decide) (by decide),
    (c6_account_cache_once
      (Env.mk (.http200 (.wellFormed (AccountsResp.mk "OK" [("111", "Brokerage")])))
        (.http200 (.wellFormed (TxResp.mk []))) 0)
      ⟨some (buildAccountMap [("111", "Brokerage")])⟩
      (buildAccountMap [("111", "Brokerage")]) "e" ["111"] 0 0).1 rfl⟩

/-- C8: for a non-empty account sequence and a valid range, the transaction
request options' body is the single JSON serialization of the inner request
document (the double encoding of the source cancels against the outer
template parse, so parsing the body once yields the inner document), whose
account entries preserve the input order (numbers, and base64-encoded
names), whose `last` template flag tests the entry index against the final
index — true only for the final account — and whose
`txnFromDate`/`txnToDate` are the epoch-second string encodings of `start`
and `end`. -/
theorem c8_request_round_trip (accounts : List Account) (startMs endMs : Int)
    (hne : accounts ≠ [])
    (hs : checkDate startMs = "") (he : checkDate endMs = "") :
    (getTransactionsOptions accounts startMs endMs).body =
      serializeReq (getTransactionsBody accounts startMs endMs)
    ∧ (getTransactionsBody accounts startMs endMs).acctDetailList.map
        TemplatedAcct.number = accounts.map Account.number
    ∧ (getTransactionsBody accounts startMs endMs).acctDetailList.map
        TemplatedAcct.name = accounts.map (fun a => encodeAccountName a.name)
    ∧ (∀ j (hj : j < (getTransactionsBody accounts startMs endMs).acctDetailList.length),
        ((getTransactionsBody accounts startMs endMs).acctDetailList.get ⟨j, hj⟩).last =
          (j == accounts.length - 1))
    ∧ (getTransactionsBody accounts startMs endMs).searchCriteriaDetail.txnFromDate =
        fidelityDate startMs
    ∧ (getTransactionsBody accounts startMs endMs).searchCriteriaDetail.txnToDate =
        fidelityDate endMs := by
  refine ⟨rfl, ?_, ?_, ?_, rfl, rfl⟩
  · exact buildAcctDictsAux_map_number accounts.length accounts 0
  · exact buildAcctDictsAux_map_name accounts.length accounts 0
  · intro j hj
    have h := buildAcctDictsAux_get_last accounts.length accounts 0 j hj
    simpa using h

/-- Witness for C8 on the spec's round-trip example: accounts
`[{111, A}, {222, B}]` and the calendar range 2024-01-01 to 2024-01-31
(UTC-midnight `Date`s), together with the concretely evaluated entry list
and epoch-second strings. -/
theorem c8_request_round_trip_witness :
    ((getTransactionsOptions [Account.mk "111" "A", Account.mk "222" "B"]
        (19723 * 86400000) (19753 * 86400000)).body =
      serializeReq (getTransactionsBody [Account.mk "111" "A", Account.mk "222" "B"]
        (19723 * 86400000) (19753 * 86400000))
    ∧ (getTransactionsBody [Account.mk "111" "A", Account.mk "222" "B"]
        (19723 * 86400000) (19753 * 86400000)).acctDetailList.map
        TemplatedAcct.number =
        [Account.mk "111" "A", Account.mk "222" "B"].map Account.number
    ∧ (getTransactionsBody [Account.mk "111" "A", Account.mk "222" "B"]
        (19723 * 86400000) (19753 * 86400000)).acctDetailList.map
        TemplatedAcct.name =
        [Account.mk "111" "A", Account.mk "222" "B"].map
          (fun a => encodeAccountName a.name)
    ∧ (∀ j (hj : j < (getTransactionsBody [Account.mk "111" "A", Account.mk "222" "B"]
          (19723 * 86400000) (19753 * 86400000)).acctDetailList.length),
        ((getTransactionsBody [Account.mk "111" "A", Account.mk "222" "B"]
          (19723 * 86400000) (19753 * 86400000)).acctDetailList.get ⟨j, hj⟩).last =
          (j == ([Account.mk "111" "A", Account.mk "222" "B"] : List Account).length - 1))
    ∧ (getTransactionsBody [Account.mk "111" "A", Account.mk "222" "B"]
        (19723 * 86400000) (19753 * 86400000)).searchCriteriaDetail.txnFromDate =
        fidelityDate (19723 * 86400000)
    ∧ (getTransactionsBody [Account.mk "111" "A", Account.mk "222" "B"]
        (19723 * 86400000) (19753 * 86400000)).searchCriteriaDetail.txnToDate =
        fidelityDate (19753 * 86400000))
    ∧ (getTransactionsBody [Account.mk "111" "A", Account.mk "222" "B"]
        (19723 * 86400000) (19753 * 86400000)).acctDetailList =
      [TemplatedAcct.mk "111" "QQ==" false, TemplatedAcct.mk "222" "Qg==" true]
    ∧ fidelityDate (19723 * 86400000) = "1704085200"
    ∧ fidelityDate (19753 * 86400000) = "1706677200" :=
  ⟨c8_request_round_trip [Account.mk "111" "A", Account.mk "222" "B"]
      (19723 * 86400000) (19753 * 86400000) (by decide) (by decide) (by decide),
    by decide, by decide, by decide⟩

end FidelityHelper

